import Mathlib

/-!
Verification of the friend-relationship routes of `src/server.js`.

The Express application registers two handlers for `POST /api/friend-request`
(lines 241 and 336) and two for `PUT /api/friend-request/:requestId` (lines 313
and 391); Express dispatches a request to the first matching registered handler
and the first handlers respond without calling `next()`, so the handlers at
lines 241 and 313 are the effective ones and the later registrations are dead
code.  The definitions below embed the effective handlers.

State is the persisted Mongo store: the `users` collection (only the
relationship-relevant fields of `userSchema`, lines 62-70), the
`friendrequests` collection (`friendRequestSchema`, lines 75-84) and a counter
supplying fresh `_id`s for new request records.  Handler results are the HTTP
response: a payload or an error `(status code, message)`.
-/

/-- Relationship status reported by `GET /api/friend-requests/check/:fromUserId/:toUserId`
(src/server.js lines 206-238). -/
inductive RelStatus
  | none
  | pending
  | friends
deriving DecidableEq

/-- Lifecycle status of a standalone `FriendRequest` record
(`friendRequestSchema`, src/server.js line 79: enum pending/accepted/rejected). -/
inductive ReqStatus
  | pending
  | accepted
  | rejected
deriving DecidableEq, BEq

/-- The relationship-relevant fields of a user document (`userSchema`,
src/server.js lines 62-70): `friends`, `incomingRequests`, `outgoingRequests`,
each a list of user identifiers. -/
structure UserDoc where
  friends : List String
  incomingRequests : List String
  outgoingRequests : List String
deriving DecidableEq

/-- A standalone friend-request record (`friendRequestSchema`,
src/server.js lines 75-84); `id` models Mongo's `_id`. -/
structure FriendReq where
  id : Nat
  fromUser : String
  toUser : String
  status : ReqStatus
deriving DecidableEq

/-- The persisted store: user documents keyed by identifier, the
`FriendRequest` collection, and the next fresh record identifier. -/
structure DB where
  users : List (String × UserDoc)
  requests : List FriendReq
  nextId : Nat
deriving DecidableEq

/-- An HTTP-level error response: status code and message, exactly as the
handlers send them with `res.status(code).json({ message })`. -/
structure HttpError where
  code : Nat
  message : String
deriving DecidableEq

/-- Decidable equality of handler outcomes, to evaluate the model on
concrete stores. -/
instance exceptDecEq {ε α : Type} [DecidableEq ε] [DecidableEq α] :
    DecidableEq (Except ε α) := fun a b =>
  match a, b with
  | Except.ok x, Except.ok y =>
    if h : x = y then Decidable.isTrue (h ▸ rfl)
    else Decidable.isFalse (fun hc => h (Except.ok.inj hc))
  | Except.error e, Except.error f =>
    if h : e = f then Decidable.isTrue (h ▸ rfl)
    else Decidable.isFalse (fun hc => h (Except.error.inj hc))
  | Except.ok _, Except.error _ => Decidable.isFalse (fun hc => Except.noConfusion hc)
  | Except.error _, Except.ok _ => Decidable.isFalse (fun hc => Except.noConfusion hc)

/-- `User.findById(userId)`: the document stored under `userId`, if any. -/
def findById (db : DB) (userId : String) : Option UserDoc :=
  (db.users.find? (fun p => p.1 == userId)).map (fun p => p.2)

/-- `FriendRequest.findOne({ fromUser, toUser, status: 'pending' })` of the
effective send handler (src/server.js lines 259-263), as a Boolean test. -/
def hasPendingReq (db : DB) (fromUser toUser : String) : Bool :=
  db.requests.any (fun r =>
    r.fromUser == fromUser && r.toUser == toUser && r.status == ReqStatus.pending)

/-- Apply `g` to the document stored under `userId`, as both
`User.findByIdAndUpdate(userId, ...)` and `doc.save()` do.  A missing
`userId` makes this a no-op, matching `findByIdAndUpdate` on an unknown id. -/
def updateUser (db : DB) (userId : String) (g : UserDoc → UserDoc) : DB :=
  { db with users := db.users.map (fun p => if p.1 = userId then (p.1, g p.2) else p) }

/-- `$addToSet: { friends: friendId }` on user `userId`
(src/server.js lines 324-325). -/
def addToSetFriend (db : DB) (userId friendId : String) : DB :=
  updateUser db userId (fun u =>
    { u with friends := if friendId ∈ u.friends then u.friends else u.friends ++ [friendId] })

/-- `user.friends = user.friends.filter(id => id.toString() !== friendId)`
followed by `user.save()` (src/server.js lines 520-523). -/
def filterFriend (db : DB) (userId friendId : String) : DB :=
  updateUser db userId (fun u =>
    { u with friends := u.friends.filter (fun i => i != friendId) })

/-- `request.status = status; await request.save()` of the effective resolve
handler (src/server.js lines 320-321). -/
def setReqStatus (db : DB) (requestId : Nat) (status : ReqStatus) : DB :=
  { db with requests := db.requests.map (fun r =>
      if r.id = requestId then { r with status := status } else r) }

/-- `GET /api/friend-requests/check/:fromUserId/:toUserId`
(src/server.js lines 206-238): 404 when either user is missing; `friends`
when `toUserId` is in the sender's `friends` array; `pending` when
`toUserId` is in the sender's `outgoingRequests` or `fromUserId` is in the
receiver's `incomingRequests`; `none` otherwise. -/
def queryStatus (db : DB) (fromUserId toUserId : String) : Except HttpError RelStatus :=
  match findById db fromUserId, findById db toUserId with
  | some sender, some receiver =>
    if toUserId ∈ sender.friends then Except.ok RelStatus.friends
    else if toUserId ∈ sender.outgoingRequests ∨ fromUserId ∈ receiver.incomingRequests then
      Except.ok RelStatus.pending
    else Except.ok RelStatus.none
  | _, _ => Except.error ⟨404, "User not found"⟩

/-- The effective `POST /api/friend-request` handler (src/server.js lines
241-277).  Missing field → 400; self-request → 400; a missing sender makes
`sender.friends` throw a TypeError which the catch block reports as a 500
(the receiver's existence is never checked); `toUser` already in the
sender's `friends` → 400; a pending record in the same direction → 400;
otherwise a new pending `FriendRequest` record is created and its id
returned with status 201.  The user documents are never touched. -/
def sendRequest (db : DB) (fromUser toUser : String) : DB × Except HttpError Nat :=
  if fromUser = "" ∨ toUser = "" then
    (db, Except.error ⟨400, "Both fromUser and toUser are required"⟩)
  else if fromUser = toUser then
    (db, Except.error ⟨400, "Cannot send request to yourself"⟩)
  else
    match findById db fromUser with
    | Option.none => (db, Except.error ⟨500, "Error sending friend request"⟩)
    | Option.some sender =>
      if toUser ∈ sender.friends then
        (db, Except.error ⟨400, "Already friends"⟩)
      else if hasPendingReq db fromUser toUser then
        (db, Except.error ⟨400, "Friend request already sent"⟩)
      else
        ({ db with
            requests := db.requests ++ [⟨db.nextId, fromUser, toUser, ReqStatus.pending⟩],
            nextId := db.nextId + 1 },
         Except.ok db.nextId)

/-- `DELETE /api/friend-request/:requestId` (src/server.js lines 280-295):
404 when no record has the id; 400 when the record is not pending; otherwise
the record is deleted. -/
def cancelRequest (db : DB) (requestId : Nat) : DB × Except HttpError Unit :=
  match db.requests.find? (fun r => r.id == requestId) with
  | Option.none => (db, Except.error ⟨404, "Friend request not found"⟩)
  | Option.some request =>
    if request.status ≠ ReqStatus.pending then
      (db, Except.error ⟨400, "Only pending requests can be cancelled"⟩)
    else
      ({ db with requests := db.requests.filter (fun r => r.id != requestId) }, Except.ok ())

/-- The effective `PUT /api/friend-request/:requestId` handler
(src/server.js lines 313-333): 404 when no record has the id; otherwise the
record's status is overwritten with the request body's `status` and, when
that status is `accepted`, each user is `$addToSet`-ed into the other's
`friends`.  The `outgoingRequests`/`incomingRequests` arrays are never
touched, and a record that was already resolved is found and processed
again. -/
def resolveRequest (db : DB) (requestId : Nat) (status : ReqStatus) : DB × Except HttpError Unit :=
  match db.requests.find? (fun r => r.id == requestId) with
  | Option.none => (db, Except.error ⟨404, "Friend request not found"⟩)
  | Option.some request =>
    let db1 := setReqStatus db requestId status
    if status = ReqStatus.accepted then
      (addToSetFriend (addToSetFriend db1 request.fromUser request.toUser)
        request.toUser request.fromUser, Except.ok ())
    else
      (db1, Except.ok ())

/-- `DELETE /api/friends/:userId/:friendId` (src/server.js lines 506-530):
404 when either user is missing; otherwise each is filtered out of the
other's `friends` array and both documents are saved. -/
def removeFriendship (db : DB) (userId friendId : String) : DB × Except HttpError Unit :=
  match findById db userId, findById db friendId with
  | some _, some _ => (filterFriend (filterFriend db userId friendId) friendId userId, Except.ok ())
  | _, _ => (db, Except.error ⟨404, "User not found"⟩)

/-- One call of the relationship manager, for frame properties quantifying
over all operations. -/
inductive Op
  | query (fromUserId toUserId : String)
  | send (fromUser toUser : String)
  | cancel (requestId : Nat)
  | resolve (requestId : Nat) (status : ReqStatus)
  | removeFriend (userId friendId : String)

/-- Run one operation, keeping the resulting store and the success/error
outcome. -/
def runOp (db : DB) : Op → DB × Except HttpError Unit
  | Op.query a b => (db, (queryStatus db a b).map (fun _ => ()))
  | Op.send a b => ((sendRequest db a b).1, (sendRequest db a b).2.map (fun _ => ()))
  | Op.cancel rid => cancelRequest db rid
  | Op.resolve rid st => resolveRequest db rid st
  | Op.removeFriend a b => removeFriendship db a b

/-- A user document with no relationships. -/
def emptyUser : UserDoc := ⟨[], [], []⟩

/-- Two users, no relationship state. -/
def db0 : DB := ⟨[("alice", emptyUser), ("bob", emptyUser)], [], 0⟩

/-- The store after `sendRequest(alice, bob)` succeeded on `db0`. -/
def dbAfterSend : DB := (sendRequest db0 "alice" "bob").1

/-- A pair whose pending request alice→bob is recorded in both
representations at once: a pending `FriendRequest` record and the mirrored
`outgoingRequests`/`incomingRequests` entries the spec's data model
prescribes for a pending pair. -/
def dbPendingArrays : DB :=
  ⟨[("alice", ⟨[], [], ["bob"]⟩), ("bob", ⟨[], ["alice"], []⟩)],
   [⟨0, "alice", "bob", ReqStatus.pending⟩], 1⟩

/-- A pair with a pending request bob→alice recorded in both representations. -/
def dbReversePending : DB :=
  ⟨[("alice", ⟨[], ["bob"], []⟩), ("bob", ⟨[], [], ["alice"]⟩)],
   [⟨0, "bob", "alice", ReqStatus.pending⟩], 1⟩

/-- Only alice exists. -/
def dbOnlyAlice : DB := ⟨[("alice", emptyUser)], [], 0⟩

/-- Alice and bob are friends, mutually. -/
def dbFriends : DB :=
  ⟨[("alice", ⟨["bob"], [], []⟩), ("bob", ⟨["alice"], [], []⟩)], [], 0⟩

/-- Looking a user up after an update keyed on `uid`: the update is applied to
the looked-up document exactly when the looked-up identifier is `uid`. -/
theorem find_map_keyed (l : List (String × UserDoc)) (uid x : String) (g : UserDoc → UserDoc) :
    ((l.map (fun p => if p.1 = uid then (p.1, g p.2) else p)).find?
        (fun p => p.1 == x)).map (fun p => p.2) =
      if x = uid then ((l.find? (fun p => p.1 == x)).map (fun p => p.2)).map g
      else (l.find? (fun p => p.1 == x)).map (fun p => p.2) := by
  induction l with
  | nil => simp
  | cons hd tl ih =>
    obtain ⟨k, d⟩ := hd
    simp only [List.map_cons]
    by_cases hk : k = uid
    · rw [if_pos hk]
      by_cases hx : k = x
      · rw [@List.find?_cons_of_pos _ (fun q => q.1 == x) (k, g d) _ (by simp [hx]),
            @List.find?_cons_of_pos _ (fun q => q.1 == x) (k, d) _ (by simp [hx]),
            if_pos (hx.symm.trans hk)]
        simp
      · rw [@List.find?_cons_of_neg _ (fun q => q.1 == x) (k, g d) _ (by simp [hx]),
            @List.find?_cons_of_neg _ (fun q => q.1 == x) (k, d) _ (by simp [hx])]
        exact ih
    · rw [if_neg hk]
      by_cases hx : k = x
      · rw [@List.find?_cons_of_pos _ (fun q => q.1 == x) (k, d) _ (by simp [hx]),
            @List.find?_cons_of_pos _ (fun q => q.1 == x) (k, d) _ (by simp [hx]),
            if_neg (fun hxu => hk (hx.trans hxu))]
      · rw [@List.find?_cons_of_neg _ (fun q => q.1 == x) (k, d) _ (by simp [hx]),
            @List.find?_cons_of_neg _ (fun q => q.1 == x) (k, d) _ (by simp [hx])]
        exact ih

/-- `findById` after `updateUser`. -/
theorem findById_updateUser (db : DB) (uid : String) (g : UserDoc → UserDoc) (x : String) :
    findById (updateUser db uid g) x =
      if x = uid then (findById db x).map g else findById db x :=
  find_map_keyed db.users uid x g

/-- An update keyed on a user identifier does not change the set of stored
identifiers. -/
theorem updateUser_keys (db : DB) (uid : String) (g : UserDoc → UserDoc) :
    (updateUser db uid g).users.map Prod.fst = db.users.map Prod.fst := by
  unfold updateUser
  simp only [List.map_map]
  refine List.map_congr_left (fun p _ => ?_)
  by_cases h : p.1 = uid <;> simp [h]

/-- A keyed rewrite that maps every matching document to itself leaves the
list unchanged. -/
theorem map_keyed_id (l : List (String × UserDoc)) (uid : String) (g : UserDoc → UserDoc)
    (h : ∀ p ∈ l, p.1 = uid → g p.2 = p.2) :
    l.map (fun p => if p.1 = uid then (p.1, g p.2) else p) = l := by
  induction l with
  | nil => rfl
  | cons hd tl ih =>
    have hhd : (if hd.1 = uid then (hd.1, g hd.2) else hd) = hd := by
      by_cases hk : hd.1 = uid
      · rw [if_pos hk, h hd (List.mem_cons_self hd tl) hk]
      · rw [if_neg hk]
    rw [List.map_cons, hhd, ih (fun p hp hpk => h p (List.mem_cons_of_mem hd hp) hpk)]

/-- An update that rewrites every matching document to itself is a no-op on
the store. -/
theorem updateUser_id (db : DB) (uid : String) (g : UserDoc → UserDoc)
    (h : ∀ p ∈ db.users, p.1 = uid → g p.2 = p.2) : updateUser db uid g = db := by
  unfold updateUser
  rw [map_keyed_id db.users uid g h]

/-- With no duplicate identifiers (Mongo's unique `_id`), every stored pair
whose key is `uid` carries the document `findById` returns. -/
theorem find_unique_aux (l : List (String × UserDoc)) (hnd : (l.map Prod.fst).Nodup)
    (x : String) (u : UserDoc)
    (hf : (l.find? (fun p => p.1 == x)).map (fun p => p.2) = some u) :
    ∀ p ∈ l, p.1 = x → p.2 = u := by
  induction l with
  | nil => simp at hf
  | cons hd tl ih =>
    simp only [List.map_cons, List.nodup_cons] at hnd
    intro p hp hpx
    rcases List.mem_cons.mp hp with rfl | hmem
    · rw [@List.find?_cons_of_pos _ (fun q => q.1 == x) p _ (by simp [hpx])] at hf
      simpa using hf
    · by_cases hk : hd.1 = x
      · exfalso
        apply hnd.1
        rw [hk, ← hpx]
        exact List.mem_map_of_mem Prod.fst hmem
      · rw [@List.find?_cons_of_neg _ (fun q => q.1 == x) hd _ (by simp [hk])] at hf
        exact ih hnd.2 hf p hmem hpx

/-- `findById_unique` at the store level. -/
theorem findById_unique (db : DB) (hnd : (db.users.map Prod.fst).Nodup)
    (uid : String) (u : UserDoc) (hf : findById db uid = some u) :
    ∀ p ∈ db.users, p.1 = uid → p.2 = u :=
  find_unique_aux db.users hnd uid u hf

/-- Shape of `sendRequest`: it either fails leaving the store untouched or
succeeds appending exactly one pending record. -/
theorem sendRequest_shape (db : DB) (a b : String) :
    (∃ e, sendRequest db a b = (db, Except.error e)) ∨
    sendRequest db a b =
      ({ db with
          requests := db.requests ++ [⟨db.nextId, a, b, ReqStatus.pending⟩],
          nextId := db.nextId + 1 },
       Except.ok db.nextId) := by
  unfold sendRequest
  repeat' split
  all_goals first
    | exact Or.inl ⟨_, rfl⟩
    | exact Or.inr rfl

/-- Shape of `cancelRequest`: it either fails leaving the store untouched or
succeeds deleting the record. -/
theorem cancelRequest_shape (db : DB) (rid : Nat) :
    (∃ e, cancelRequest db rid = (db, Except.error e)) ∨
    cancelRequest db rid =
      ({ db with requests := db.requests.filter (fun q => q.id != rid) }, Except.ok ()) := by
  unfold cancelRequest
  repeat' split
  all_goals first
    | exact Or.inl ⟨_, rfl⟩
    | exact Or.inr rfl

/-- Shape of `resolveRequest`: it either fails with 404 leaving the store
untouched or succeeds. -/
theorem resolveRequest_shape (db : DB) (rid : Nat) (st : ReqStatus) :
    resolveRequest db rid st = (db, Except.error ⟨404, "Friend request not found"⟩) ∨
    (resolveRequest db rid st).2 = Except.ok () := by
  unfold resolveRequest
  repeat' split
  all_goals first
    | exact Or.inl rfl
    | exact Or.inr rfl

/-- Shape of `removeFriendship`: it either fails with 404 leaving the store
untouched or succeeds. -/
theorem removeFriendship_shape (db : DB) (a b : String) :
    removeFriendship db a b = (db, Except.error ⟨404, "User not found"⟩) ∨
    (removeFriendship db a b).2 = Except.ok () := by
  unfold removeFriendship
  repeat' split
  all_goals first
    | exact Or.inl rfl
    | exact Or.inr rfl

/-- C9: whenever an operation of the relationship manager responds with an
error, the store — both users' documents and every request record — is
exactly as it was before the call: every error path of every effective
handler responds before any save. -/
theorem failed_op_frame (db : DB) (op : Op) (e : HttpError)
    (h : (runOp db op).2 = Except.error e) : (runOp db op).1 = db := by
  cases op with
  | query a b => rfl
  | send a b =>
    rcases sendRequest_shape db a b with ⟨e2, h2⟩ | h2
    · show (sendRequest db a b).1 = db
      rw [h2]
    · have hok : (runOp db (Op.send a b)).2 = Except.ok () := by
        show ((sendRequest db a b).2.map fun _ => ()) = Except.ok ()
        rw [h2]
        rfl
      rw [hok] at h
      exact Except.noConfusion h
  | cancel rid =>
    rcases cancelRequest_shape db rid with ⟨e2, h2⟩ | h2
    · show (cancelRequest db rid).1 = db
      rw [h2]
    · have hok : (runOp db (Op.cancel rid)).2 = Except.ok () := by
        show (cancelRequest db rid).2 = Except.ok ()
        rw [h2]
      rw [hok] at h
      exact Except.noConfusion h
  | resolve rid st =>
    rcases resolveRequest_shape db rid st with h2 | h2
    · show (resolveRequest db rid st).1 = db
      rw [h2]
    · have hok : (runOp db (Op.resolve rid st)).2 = Except.ok () := h2
      rw [hok] at h
      exact Except.noConfusion h
  | removeFriend a b =>
    rcases removeFriendship_shape db a b with h2 | h2
    · show (removeFriendship db a b).1 = db
      rw [h2]
    · have hok : (runOp db (Op.removeFriend a b)).2 = Except.ok () := h2
      rw [hok] at h
      exact Except.noConfusion h

/-- C9 witness: the rejected self-request leaves the store unchanged. -/
theorem failed_op_frame_witness : (runOp db0 (Op.send "alice" "alice")).1 = db0 :=
  failed_op_frame db0 (Op.send "alice" "alice")
    ⟨400, "Cannot send request to yourself"⟩ (by decide)

/-- C10: a successful `sendRequest` leaves every user document unchanged —
no `friends`, `outgoingRequests` or `incomingRequests` array is touched —
and its only effect is appending one new pending `FriendRequest` record,
whose fresh id it returns. -/
theorem sendRequest_success_frame (db : DB) (a b : String) (rid : Nat)
    (h : (sendRequest db a b).2 = Except.ok rid) :
    (sendRequest db a b).1.users = db.users ∧
    (sendRequest db a b).1.requests =
      db.requests ++ [⟨db.nextId, a, b, ReqStatus.pending⟩] ∧
    rid = db.nextId := by
  rcases sendRequest_shape db a b with ⟨e2, h2⟩ | h2
  · rw [h2] at h
    exact Except.noConfusion h
  · rw [h2] at h ⊢
    exact ⟨rfl, rfl, (Except.ok.inj h).symm⟩

/-- C10 witness at a concrete store. -/
theorem sendRequest_success_frame_witness :
    (sendRequest db0 "alice" "bob").1.users = db0.users ∧
    (sendRequest db0 "alice" "bob").1.requests =
      db0.requests ++ [⟨db0.nextId, "alice", "bob", ReqStatus.pending⟩] ∧
    0 = db0.nextId :=
  sendRequest_success_frame db0 "alice" "bob" 0 (by decide)

/-- C6: `cancelRequest` fails with 404 NotFound when no record carries the
identifier, fails with 400 (only pending requests can be cancelled) when the
record is not pending, and on a pending record succeeds, deleting exactly
that record: no user document changes, no other record is dropped. -/
theorem cancelRequest_correct (db : DB) (rid : Nat) :
    ((∀ r ∈ db.requests, r.id ≠ rid) →
      cancelRequest db rid = (db, Except.error ⟨404, "Friend request not found"⟩)) ∧
    (∀ r, db.requests.find? (fun q => q.id == rid) = some r →
      r.status ≠ ReqStatus.pending →
      cancelRequest db rid =
        (db, Except.error ⟨400, "Only pending requests can be cancelled"⟩)) ∧
    (∀ r, db.requests.find? (fun q => q.id == rid) = some r →
      r.status = ReqStatus.pending →
      (cancelRequest db rid).2 = Except.ok () ∧
      (cancelRequest db rid).1.users = db.users ∧
      (∀ q ∈ (cancelRequest db rid).1.requests, q.id ≠ rid) ∧
      (∀ q ∈ (cancelRequest db rid).1.requests, q ∈ db.requests) ∧
      (∀ q ∈ db.requests, q.id ≠ rid → q ∈ (cancelRequest db rid).1.requests)) := by
  refine ⟨?_, ?_, ?_⟩
  · intro hnone
    have hfind : db.requests.find? (fun q => q.id == rid) = Option.none :=
      List.find?_eq_none.mpr (fun q hq => by simp [hnone q hq])
    unfold cancelRequest
    rw [hfind]
  · intro r hr hst
    unfold cancelRequest
    simp only [hr]
    rw [if_pos hst]
  · intro r hr hst
    unfold cancelRequest
    simp only [hr]
    rw [if_neg (by simp [hst])]
    refine ⟨rfl, rfl, ?_, ?_, ?_⟩
    · intro q hq
      simpa using List.of_mem_filter hq
    · intro q hq
      exact List.mem_of_mem_filter hq
    · intro q hq hqne
      exact List.mem_filter.mpr ⟨hq, by simpa using hqne⟩

/-- C6 witness: cancelling the pending request of `dbAfterSend` deletes it. -/
theorem cancelRequest_correct_witness :
    (cancelRequest dbAfterSend 0).2 = Except.ok () :=
  ((cancelRequest_correct dbAfterSend 0).2.2 ⟨0, "alice", "bob", ReqStatus.pending⟩
    (by decide) (by decide)).1

/-- C7: between two distinct existing users, `removeFriendship` succeeds; it
removes each user from the other's `friends` array symmetrically and changes
nothing else of either document; and when the two are not friends — the
stored identifiers being unique, as Mongo's `_id` is — it is a complete
no-op on the store, not an error. -/
theorem removeFriendship_correct (db : DB) (a b : String) (ua ub : UserDoc)
    (hne : a ≠ b) (ha : findById db a = some ua) (hb : findById db b = some ub) :
    (removeFriendship db a b).2 = Except.ok () ∧
    (removeFriendship db a b).1.requests = db.requests ∧
    (∃ ua2, findById (removeFriendship db a b).1 a = some ua2 ∧
      b ∉ ua2.friends ∧ (∀ x, x ≠ b → (x ∈ ua2.friends ↔ x ∈ ua.friends)) ∧
      ua2.incomingRequests = ua.incomingRequests ∧
      ua2.outgoingRequests = ua.outgoingRequests) ∧
    (∃ ub2, findById (removeFriendship db a b).1 b = some ub2 ∧
      a ∉ ub2.friends ∧ (∀ x, x ≠ a → (x ∈ ub2.friends ↔ x ∈ ub.friends)) ∧
      ub2.incomingRequests = ub.incomingRequests ∧
      ub2.outgoingRequests = ub.outgoingRequests) ∧
    ((db.users.map Prod.fst).Nodup → b ∉ ua.friends → a ∉ ub.friends →
      (removeFriendship db a b).1 = db) := by
  have hred : removeFriendship db a b =
      (filterFriend (filterFriend db a b) b a, Except.ok ()) := by
    unfold removeFriendship
    rw [ha, hb]
  refine ⟨by rw [hred], by rw [hred]; rfl, ?_, ?_, ?_⟩
  · refine ⟨{ ua with friends := ua.friends.filter (fun i => i != b) }, ?_, ?_, ?_, rfl, rfl⟩
    · rw [hred]
      show findById (filterFriend (filterFriend db a b) b a) a = _
      unfold filterFriend
      rw [findById_updateUser, if_neg hne, findById_updateUser, if_pos rfl, ha]
      rfl
    · simp [List.mem_filter]
    · intro x hx
      simp [List.mem_filter, hx]
  · refine ⟨{ ub with friends := ub.friends.filter (fun i => i != a) }, ?_, ?_, ?_, rfl, rfl⟩
    · rw [hred]
      show findById (filterFriend (filterFriend db a b) b a) b = _
      unfold filterFriend
      rw [findById_updateUser, if_pos rfl, findById_updateUser,
        if_neg (fun hba => hne hba.symm), hb]
      rfl
    · simp [List.mem_filter]
    · intro x hx
      simp [List.mem_filter, hx]
  · intro hnd hbf haf
    rw [hred]
    have h1 : filterFriend db a b = db := by
      unfold filterFriend
      refine updateUser_id db a _ (fun p hp hpk => ?_)
      have hpu : p.2 = ua := findById_unique db hnd a ua ha p hp hpk
      rw [hpu]
      have hfa : ua.friends.filter (fun i => i != b) = ua.friends :=
        List.filter_eq_self.mpr (fun i hi => by
          rw [bne_iff_ne]
          exact fun hib => hbf (hib ▸ hi))
      rw [hfa]
    have h2 : filterFriend db b a = db := by
      unfold filterFriend
      refine updateUser_id db b _ (fun p hp hpk => ?_)
      have hpu : p.2 = ub := findById_unique db hnd b ub hb p hp hpk
      rw [hpu]
      have hfb : ub.friends.filter (fun i => i != a) = ub.friends :=
        List.filter_eq_self.mpr (fun i hi => by
          rw [bne_iff_ne]
          exact fun hia => haf (hia ▸ hi))
      rw [hfb]
    show filterFriend (filterFriend db a b) b a = db
    rw [h1, h2]

/-- C7 witness: removing the friendship between alice and bob succeeds. -/
theorem removeFriendship_correct_witness :
    (removeFriendship dbFriends "alice" "bob").2 = Except.ok () :=
  (removeFriendship_correct dbFriends "alice" "bob" ⟨["bob"], [], []⟩ ⟨["alice"], [], []⟩
    (by decide) (by decide) (by decide)).1

/-- C3 amended: `queryStatus(A,B)` fails with 404 NotFound exactly when either
user is missing; otherwise it returns `friends` exactly when B is in A's
`friends` array (A's side only — mutual listing is not required); otherwise
`pending` exactly when B is in A's `outgoingRequests` or A is in B's
`incomingRequests` — both encodings of the A→B direction, so a B→A request
is not detected; otherwise `none`. -/
theorem queryStatus_characterization (db : DB) (a b : String) :
    (queryStatus db a b = Except.error ⟨404, "User not found"⟩ ↔
      findById db a = Option.none ∨ findById db b = Option.none) ∧
    (queryStatus db a b = Except.ok RelStatus.friends ↔
      ∃ ua ub, findById db a = some ua ∧ findById db b = some ub ∧ b ∈ ua.friends) ∧
    (queryStatus db a b = Except.ok RelStatus.pending ↔
      ∃ ua ub, findById db a = some ua ∧ findById db b = some ub ∧
        b ∉ ua.friends ∧ (b ∈ ua.outgoingRequests ∨ a ∈ ub.incomingRequests)) ∧
    (queryStatus db a b = Except.ok RelStatus.none ↔
      ∃ ua ub, findById db a = some ua ∧ findById db b = some ub ∧
        b ∉ ua.friends ∧ b ∉ ua.outgoingRequests ∧ a ∉ ub.incomingRequests) := by
  unfold queryStatus
  cases ha : findById db a with
  | none => simp
  | some ua =>
    cases hb : findById db b with
    | none => simp
    | some ub =>
      by_cases h1 : b ∈ ua.friends
      · simp [h1]
      · by_cases h2 : b ∈ ua.outgoingRequests ∨ a ∈ ub.incomingRequests
        · rcases h2 with h2 | h2 <;> simp [h1, h2]
        · push_neg at h2
          simp [h1, h2.1, h2.2]

/-- C4 amended: a pending request A→B does not block `sendRequest(B,A)`: the
effective send handler checks only the B→A direction for an existing pending
record, so while A→B is pending the reverse call succeeds and appends a
second, opposite-direction pending record instead of failing with
Conflict. -/
theorem sendRequest_reverse_succeeds (db : DB) (a b : String) (ub : UserDoc)
    (_hpend : hasPendingReq db a b = true)
    (ha : a ≠ "") (hb : b ≠ "") (hne : b ≠ a)
    (hfind : findById db b = some ub)
    (hnotfriend : a ∉ ub.friends)
    (hnorev : hasPendingReq db b a = false) :
    (sendRequest db b a).2 = Except.ok db.nextId ∧
    (sendRequest db b a).1.requests =
      db.requests ++ [⟨db.nextId, b, a, ReqStatus.pending⟩] := by
  unfold sendRequest
  rw [if_neg (by simp [hb, ha]), if_neg hne]
  simp only [hfind]
  rw [if_neg hnotfriend, if_neg (by simp [hnorev])]
  exact ⟨rfl, rfl⟩

/-- C4 witness: the store reached by `sendRequest(alice,bob)` satisfies every
hypothesis, and the reverse send succeeds on it. -/
theorem sendRequest_reverse_succeeds_witness :
    (sendRequest dbAfterSend "bob" "alice").2 = Except.ok dbAfterSend.nextId ∧
    (sendRequest dbAfterSend "bob" "alice").1.requests =
      dbAfterSend.requests ++ [⟨dbAfterSend.nextId, "bob", "alice", ReqStatus.pending⟩] :=
  sendRequest_reverse_succeeds dbAfterSend "alice" "bob" emptyUser (by decide) (by decide)
    (by decide) (by decide) (by decide) (by decide) (by decide)

/-- C5 amended: the effective send handler's complete case analysis.  A
missing field is a 400; A=B is rejected with 400 (InvalidOperation); a
missing sender makes the handler crash into its catch block, reported as a
500 server error, NOT a 404 NotFound — and the receiver's existence is never
checked; Conflict (400) arises exactly when B is already in A's `friends`
array or a pending A→B record exists — a pending B→A record does not
conflict; otherwise the call succeeds, appending one pending record. -/
theorem sendRequest_error_taxonomy (db : DB) (a b : String) :
    ((a = "" ∨ b = "") →
      sendRequest db a b =
        (db, Except.error ⟨400, "Both fromUser and toUser are required"⟩)) ∧
    (a ≠ "" → b ≠ "" → a = b →
      sendRequest db a b = (db, Except.error ⟨400, "Cannot send request to yourself"⟩)) ∧
    (a ≠ "" → b ≠ "" → a ≠ b → findById db a = Option.none →
      sendRequest db a b = (db, Except.error ⟨500, "Error sending friend request"⟩)) ∧
    (∀ ua, a ≠ "" → b ≠ "" → a ≠ b → findById db a = some ua → b ∈ ua.friends →
      sendRequest db a b = (db, Except.error ⟨400, "Already friends"⟩)) ∧
    (∀ ua, a ≠ "" → b ≠ "" → a ≠ b → findById db a = some ua → b ∉ ua.friends →
      hasPendingReq db a b = true →
      sendRequest db a b = (db, Except.error ⟨400, "Friend request already sent"⟩)) ∧
    (∀ ua, a ≠ "" → b ≠ "" → a ≠ b → findById db a = some ua → b ∉ ua.friends →
      hasPendingReq db a b = false →
      sendRequest db a b =
        ({ db with
            requests := db.requests ++ [⟨db.nextId, a, b, ReqStatus.pending⟩],
            nextId := db.nextId + 1 },
         Except.ok db.nextId)) := by
  refine ⟨?_, ?_, ?_, ?_, ?_, ?_⟩
  · intro h
    unfold sendRequest
    rw [if_pos h]
  · intro h1 h2 h3
    unfold sendRequest
    rw [if_neg (by simp [h1, h2]), if_pos h3]
  · intro h1 h2 h3 h4
    unfold sendRequest
    rw [if_neg (by simp [h1, h2]), if_neg h3]
    simp only [h4]
  · intro ua h1 h2 h3 h4 h5
    unfold sendRequest
    rw [if_neg (by simp [h1, h2]), if_neg h3]
    simp only [h4]
    rw [if_pos h5]
  · intro ua h1 h2 h3 h4 h5 h6
    unfold sendRequest
    rw [if_neg (by simp [h1, h2]), if_neg h3]
    simp only [h4]
    rw [if_neg h5, if_pos h6]
  · intro ua h1 h2 h3 h4 h5 h6
    unfold sendRequest
    rw [if_neg (by simp [h1, h2]), if_neg h3]
    simp only [h4]
    rw [if_neg h5, if_neg (by simp [h6])]

/-- C1: the claim fails on the code.  On two fresh users, `sendRequest(alice,bob)`
succeeds (201, record id 0), yet `queryStatus(alice,bob)` still returns `none`
and both user documents are untouched: the effective send handler only creates
a standalone record, which the check endpoint never reads. -/
theorem send_invisible_to_queryStatus :
    (sendRequest db0 "alice" "bob").2 = Except.ok 0 ∧
    queryStatus dbAfterSend "alice" "bob" = Except.ok RelStatus.none ∧
    findById dbAfterSend "alice" = some emptyUser ∧
    findById dbAfterSend "bob" = some emptyUser := by
  decide

/-- C8: the claim fails on the code.  On a pair whose pending request
alice→bob is represented both as a record and as the mirrored array entries,
rejecting the request succeeds and leaves both `friends` arrays unchanged
(that part of the claim holds), but `queryStatus(alice,bob)` still returns
`pending`, not `none`: the reject path only flips the record's status and
never clears the arrays the check endpoint reads. -/
theorem reject_leaves_pending :
    queryStatus dbPendingArrays "alice" "bob" = Except.ok RelStatus.pending ∧
    (resolveRequest dbPendingArrays 0 ReqStatus.rejected).2 = Except.ok () ∧
    queryStatus (resolveRequest dbPendingArrays 0 ReqStatus.rejected).1 "alice" "bob" =
      Except.ok RelStatus.pending ∧
    findById (resolveRequest dbPendingArrays 0 ReqStatus.rejected).1 "alice" =
      some ⟨[], [], ["bob"]⟩ ∧
    findById (resolveRequest dbPendingArrays 0 ReqStatus.rejected).1 "bob" =
      some ⟨[], ["alice"], []⟩ := by
  decide

/-- C2: the claim fails on the code.  Accepting the pending request
alice→bob makes `queryStatus` return `friends` and adds the friends entries
(these parts hold), but the `outgoingRequests`/`incomingRequests` entries
for the pair are NOT cleared, and a second accept of the same request
succeeds again instead of failing with NotFound: the effective resolve
handler finds the already-accepted record and re-processes it. -/
theorem accept_no_cleanup_no_notfound :
    (resolveRequest dbPendingArrays 0 ReqStatus.accepted).2 = Except.ok () ∧
    queryStatus (resolveRequest dbPendingArrays 0 ReqStatus.accepted).1 "alice" "bob" =
      Except.ok RelStatus.friends ∧
    findById (resolveRequest dbPendingArrays 0 ReqStatus.accepted).1 "alice" =
      some ⟨["bob"], [], ["bob"]⟩ ∧
    findById (resolveRequest dbPendingArrays 0 ReqStatus.accepted).1 "bob" =
      some ⟨["alice"], ["alice"], []⟩ ∧
    (resolveRequest (resolveRequest dbPendingArrays 0 ReqStatus.accepted).1 0
      ReqStatus.accepted).2 = Except.ok () := by
  decide

/-- C3 counterexample: a pending request bob→alice exists — the code itself
reports `pending` for `queryStatus(bob,alice)` — yet `queryStatus(alice,bob)`
returns `none`, while the claim requires `pending` for a request in either
direction. -/
theorem queryStatus_misses_reverse_direction :
    queryStatus dbReversePending "bob" "alice" = Except.ok RelStatus.pending ∧
    queryStatus dbReversePending "alice" "bob" = Except.ok RelStatus.none := by
  decide

/-- C4 counterexample: with the request alice→bob pending, `sendRequest(bob,alice)`
is not rejected with Conflict: it succeeds (201) and creates a second pending
record in the opposite direction. -/
theorem reverse_request_not_conflict :
    hasPendingReq dbAfterSend "alice" "bob" = true ∧
    (sendRequest dbAfterSend "bob" "alice").2 = Except.ok 1 ∧
    (sendRequest dbAfterSend "bob" "alice").1.requests =
      [⟨0, "alice", "bob", ReqStatus.pending⟩, ⟨1, "bob", "alice", ReqStatus.pending⟩] := by
  decide

/-- C5 counterexample: `bob` does not exist, yet `sendRequest(alice,bob)`
succeeds (201) instead of failing with NotFound: the effective send handler
never checks the receiver's existence. -/
theorem send_missing_receiver_succeeds :
    findById dbOnlyAlice "bob" = Option.none ∧
    (sendRequest dbOnlyAlice "alice" "bob").2 = Except.ok 0 := by
  decide
